import Mathlib

/-!
Verification development for the streaming audio-frame adapter of
`custom_tts.py` (classes `TTSStream` and `CustomTTS`).

The Python code is shallowly embedded as pure Lean functions:
* text handling (`push_text`, `end_input`, `aclose`, `_get_audio_filename`)
  becomes explicit state passing over a `TTSStream` structure;
* the asset decode step (`wave.open` + `np.frombuffer` in `synthesize`)
  becomes a lookup in an abstract filesystem `Fs`, whose result records
  exactly the values the code extracts (rate, channels, frame count, the
  int16 sample buffer);
* the packetization loop of `synthesize` becomes a structural chunking
  function, and the observable output of `synthesize` becomes a list of
  events (one `metrics_collected` emission and the yielded frames, in
  emission order);
* machine floats are avoided: `int(self.sample_rate * 0.02)` is embedded
  as `sampleRate / 50` (see the comment on `synthesize`), and the metric
  `duration_ms` is a rational number.
-/

namespace TTSModel

/- ===================== Python string primitives ===================== -/

/-- ASCII whitespace as recognised by Python `str.strip` (the embedding
restricts attention to ASCII text). -/
def pyIsSpace (c : Char) : Bool :=
  c = ' ' || c = '\t' || c = '\n' || c = '\r' || c = '\x0b' || c = '\x0c'

/-- Python `str.strip()`: drop leading and trailing whitespace. -/
def pyStrip (s : String) : String :=
  ⟨(((s.data.dropWhile pyIsSpace).reverse.dropWhile pyIsSpace).reverse)⟩

/-- Python `str.lower()` (ASCII case folding). -/
def pyLower (s : String) : String :=
  ⟨s.data.map Char.toLower⟩

/-- Python substring test `needle in hay`. -/
def pySubstr (needle hay : String) : Bool :=
  decide (needle.data <:+: hay.data)

/- ===================== Data model ===================== -/

/-- The values `CustomTTS.synthesize` extracts from a successfully opened
WAV file: `wav_file.getframerate()`, `wav_file.getnchannels()`,
`wav_file.getnframes()`, and the int16 sample buffer produced by
`np.frombuffer(wav_file.readframes(...), dtype=np.int16)`. -/
structure WavAsset where
  sampleRate : Nat
  numChannels : Nat
  nframes : Nat
  samples : List Int
deriving DecidableEq

/-- A 16-bit PCM asset the `wave` module can hand back: `wave` rejects a
zero channel count, and for sample width 2 the int16 buffer holds one
sample per channel per frame. -/
def WavAsset.wf (a : WavAsset) : Prop :=
  1 ≤ a.numChannels ∧ a.samples.length = a.nframes * a.numChannels

instance (a : WavAsset) : Decidable a.wf := by unfold WavAsset.wf; infer_instance

/-- Abstract filesystem seen through `os.path.join(self.audio_path, filename)`:
`none` means `os.path.exists` is false; `some none` means the file exists but
`wave.open`/`np.frombuffer` raises (malformed data); `some (some a)` means
the file decodes to asset `a`. -/
def Fs : Type := String → Option (Option WavAsset)

/-- Mirror of `livekit.rtc.AudioFrame` as constructed in
`CustomTTS._create_audio_frame`; `data` is the sample payload (int16
samples, one list entry per sample). -/
structure AudioFrame where
  data : List Int
  samplesPerChannel : Nat
  sampleRate : Nat
  numChannels : Nat
deriving DecidableEq

/-- Mirror of `TTSMetrics` (fields `num_chars`, `duration_ms`, `cost_usd`). -/
structure TTSMetrics where
  num_chars : Nat
  duration_ms : ℚ
  cost_usd : ℚ
deriving DecidableEq

/-- Observable output of one `synthesize` call, in emission order: the
`metrics_collected` event and the yielded audio frames. -/
inductive SynthEvent where
  | metrics (m : TTSMetrics)
  | frame (f : AudioFrame)
deriving DecidableEq

/-- Frames among the events of a `synthesize` call, in order. -/
def framesOf (events : List SynthEvent) : List AudioFrame :=
  events.filterMap fun e =>
    match e with
    | .frame f => some f
    | .metrics _ => none

/-- Metrics events among the events of a `synthesize` call, in order. -/
def metricsOf (events : List SynthEvent) : List TTSMetrics :=
  events.filterMap fun e =>
    match e with
    | .metrics m => some m
    | .frame _ => none

/- ===================== CustomTTS: frame creation ===================== -/

/-- Embedding of `CustomTTS._create_audio_frame(audio_data, frame_size)`:
when `frame_size <= 0` it is replaced by `len(audio_data)`; the chunk is
right-padded with zeros up to `frame_size * num_channels` samples when it
is shorter; the resulting frame carries the engine fields
`self.sample_rate` and `self.num_channels` (here passed explicitly). -/
def createAudioFrame (sampleRate numChannels : Nat) (audioData : List Int)
    (frameSize : Nat) : AudioFrame :=
  let fsz := if frameSize = 0 then audioData.length else frameSize
  let payload :=
    if audioData.length < fsz * numChannels then
      audioData ++ List.replicate (fsz * numChannels - audioData.length) 0
    else
      audioData
  ⟨payload, fsz, sampleRate, numChannels⟩

/-- Successive slices `audio_data[i : i + step]` for
`i in range(0, len(audio_data), step)`, with `step ≥ 1`. The fuel
argument is instantiated with the buffer length, which bounds the number
of loop iterations because each iteration consumes at least one sample. -/
def chunkGo (step : Nat) : Nat → List Int → List (List Int)
  | 0, _ => []
  | _ + 1, [] => []
  | fuel + 1, x :: xs => (x :: xs).take step :: chunkGo step fuel ((x :: xs).drop step)

/-- Embedding of the slicing loop
`for i in range(0, len(audio_data), step): chunk = audio_data[i:i+step]`.
With `step = 0` Python `range` raises `ValueError`, which `synthesize`
swallows, so no chunk is produced; every produced chunk is nonempty, so
the guard `if len(chunk) > 0` never filters anything. -/
def chunkList (step : Nat) (l : List Int) : List (List Int) :=
  if step = 0 then [] else chunkGo step l.length l

/-- Embedding of the frame-emission loop of `CustomTTS.synthesize`
(lines 170-175): slice the sample buffer in steps of
`frame_size * num_channels` and build one `AudioFrame` per slice. -/
def packetize (sampleRate numChannels : Nat) (audioData : List Int)
    (frameSize : Nat) : List AudioFrame :=
  (chunkList (frameSize * numChannels) audioData).map
    fun chunk => createAudioFrame sampleRate numChannels chunk frameSize

/-- Embedding of `CustomTTS.synthesize(filename)` as the list of
observable events it produces. A missing file returns early; any decode
error is caught by the `except` clause; both give the empty event list.
On success the code computes `duration = nframes / sample_rate` (a
`ZeroDivisionError` when the file declares rate 0 is likewise swallowed,
before metrics are emitted), emits one `metrics_collected` event, and
then yields the packetized frames. The Python frame size
`int(self.sample_rate * 0.02)` equals `sampleRate / 50` in natural-number
division: the double nearest to 0.02 is slightly above 1/50, so for every
realistic rate the float product `rate * 0.02` lies in
[rate/50, ceil-neighbourhood) and truncates to `rate / 50`. -/
def synthesize (fs : Fs) (filename : String) : List SynthEvent :=
  match fs filename with
  | none => []
  | some none => []
  | some (some a) =>
      if a.sampleRate = 0 then []
      else
        let frameSize := a.sampleRate / 50
        SynthEvent.metrics
            ⟨filename.length, (a.nframes : ℚ) / (a.sampleRate : ℚ) * 1000, 0⟩
          :: (packetize a.sampleRate a.numChannels a.samples frameSize).map
              SynthEvent.frame

/- ===================== TTSStream ===================== -/

/-- State of a `TTSStream` instance: `text_queue`, `_ended`, `_closed`,
`_accumulated_text`. The back-reference `self.tts` is represented by
passing the filesystem explicitly to the iteration model. -/
structure TTSStream where
  textQueue : List String
  ended : Bool
  closed : Bool
  accumulatedText : String
deriving DecidableEq

/-- A freshly constructed stream (`TTSStream.__init__`). -/
def TTSStream.init : TTSStream :=
  { textQueue := [], ended := false, closed := false, accumulatedText := "" }

/-- Embedding of `TTSStream.push_text`: ignored once ended or closed,
otherwise appended to the accumulator. -/
def pushText (s : TTSStream) (text : String) : TTSStream :=
  if s.ended || s.closed then s
  else { s with accumulatedText := s.accumulatedText ++ text }

/-- Embedding of `TTSStream.end_input`: sets `_ended`, and appends the
stripped accumulated text to `text_queue` when the stripped text is
nonempty (Python truthiness of `self._accumulated_text.strip()`). The
accumulator itself is left untouched. -/
def endInput (s : TTSStream) : TTSStream :=
  if pyStrip s.accumulatedText = "" then { s with ended := true }
  else { s with ended := true,
                textQueue := s.textQueue ++ [pyStrip s.accumulatedText] }

/-- Embedding of `TTSStream.aclose` on the stream state: sets `_closed`,
clears the queue and the accumulator. The call `await self.tts.stop()`
only mutates engine fields and is outside this state. -/
def aclose (s : TTSStream) : TTSStream :=
  { s with closed := true, textQueue := [], accumulatedText := "" }

/-- Embedding of `TTSStream._get_audio_filename`: lower-case, strip, then
keyword search; both branches return the greeting asset. -/
def getAudioFilename (text : String) : String :=
  let t := pyStrip (pyLower text)
  if ["hello", "hi", "hey", "greetings"].any (fun g => pySubstr g t) then
    "greetings.wav"
  else
    "greetings.wav"

/-- Drain loop of `TTSStream.__aiter__` over a queue snapshot: while the
queue is nonempty and the stream is not closed, pop the oldest text,
resolve it to a filename, call `synthesize`, and forward its frames
(wrapped). The first result component lists the filenames passed to
`synthesize`, in call order; the second lists the yielded frames. -/
def aiterGo (fs : Fs) (closed : Bool) : List String → List String × List AudioFrame
  | [] => ([], [])
  | t :: rest =>
      if closed then ([], [])
      else
        let fn := getAudioFilename t
        let rec_ := aiterGo fs closed rest
        (fn :: rec_.1, framesOf (synthesize fs fn) ++ rec_.2)

/-- Observable result of iterating `TTSStream.__aiter__` on a stream
whose input has ended (with `_ended` false and an empty queue the Python
loop sleeps forever and produces nothing further, which a sequential
model cannot run to completion). The per-frame `self._closed` check
inside the loop is constant here because no concurrent `aclose` can
interleave in a sequential embedding. -/
def aiter (fs : Fs) (s : TTSStream) : List String × List AudioFrame :=
  aiterGo fs s.closed s.textQueue

/- ===================== Concrete fixtures for witnesses ===================== -/

/-- A small decoded asset: 100 Hz, mono, 3 frames, samples [1, 2, 3];
its duration is 0.03 s and its 20 ms frame size is 100 / 50 = 2. -/
def sampleAsset : WavAsset :=
  { sampleRate := 100, numChannels := 1, nframes := 3, samples := [1, 2, 3] }

/-- A filesystem holding exactly one decodable file, `greetings.wav`. -/
def sampleFs : Fs :=
  fun n => if n = "greetings.wav" then some (some sampleAsset) else none

/-- A filesystem with no readable files at all. -/
def emptyFs : Fs := fun _ => none

/-- Asset used by the C1 counterexample: 75 Hz (not a multiple of 50),
mono, 3 frames. Here `int(75 * 0.02) = 1` while `round(75 * 0.02) = 2`,
and the code emits 3 frames while `ceil(D / 0.02) = 2`. -/
def oddRateAsset : WavAsset :=
  { sampleRate := 75, numChannels := 1, nframes := 3, samples := [4, 5, 6] }

/-- A filesystem holding only the odd-rate asset under `odd.wav`. -/
def oddRateFs : Fs :=
  fun n => if n = "odd.wav" then some (some oddRateAsset) else none

/-- A fresh stream whose accumulator already holds the text "hello"
(reached from `TTSStream.init` by one `push_text("hello")`). -/
def helloStream : TTSStream :=
  { textQueue := [], ended := false, closed := false, accumulatedText := "hello" }

/- ===================== Helper lemmas ===================== -/

lemma framesOf_map_frame (l : List AudioFrame) :
    framesOf (l.map SynthEvent.frame) = l := by
  induction l with
  | nil => rfl
  | cons x xs ih =>
      simp only [framesOf, List.map_cons, List.filterMap_cons] at ih ⊢
      exact congrArg (x :: ·) ih

lemma metricsOf_map_frame (l : List AudioFrame) :
    metricsOf (l.map SynthEvent.frame) = [] := by
  induction l with
  | nil => rfl
  | cons x xs ih =>
      simpa only [metricsOf, List.map_cons, List.filterMap_cons] using ih

lemma framesOf_cons_metrics (m : TTSMetrics) (es : List SynthEvent) :
    framesOf (SynthEvent.metrics m :: es) = framesOf es := by
  simp [framesOf, List.filterMap_cons]

lemma metricsOf_cons_metrics (m : TTSMetrics) (es : List SynthEvent) :
    metricsOf (SynthEvent.metrics m :: es) = m :: metricsOf es := by
  simp [metricsOf, List.filterMap_cons]

lemma chunkGo_length (step : ℕ) (hs : 0 < step) :
    ∀ (fuel : ℕ) (l : List Int), l.length ≤ fuel →
      (chunkGo step fuel l).length = (l.length + step - 1) / step := by
  intro fuel
  induction fuel with
  | zero =>
      intro l hl
      have hnil : l = [] := List.eq_nil_of_length_eq_zero (Nat.le_zero.mp hl)
      subst hnil
      simp only [chunkGo, List.length_nil]
      symm
      exact Nat.div_eq_of_lt (by omega)
  | succ n ih =>
      intro l hl
      cases l with
      | nil =>
          simp only [chunkGo, List.length_nil]
          symm
          exact Nat.div_eq_of_lt (by omega)
      | cons x xs =>
          have hdrop : ((x :: xs).drop step).length = (x :: xs).length - step := by
            simp [List.length_drop]
          have hle : ((x :: xs).drop step).length ≤ n := by
            rw [hdrop]
            simp only [List.length_cons] at hl ⊢
            omega
          simp only [chunkGo, List.length_cons]
          rw [ih _ hle, hdrop]
          simp only [List.length_cons]
          have hm1 : 1 ≤ xs.length + 1 := by omega
          have h1 : xs.length + 1 + step - 1 = (xs.length + 1 - 1) + step := by omega
          rw [h1, Nat.add_div_right _ hs]
          congr 1
          by_cases hms : step ≤ xs.length + 1
          · have h2 : xs.length + 1 - step + step - 1 = xs.length + 1 - 1 := by omega
            rw [h2]
          · have h0 : xs.length + 1 - step = 0 := by omega
            rw [h0]
            rw [Nat.div_eq_of_lt (by omega), Nat.div_eq_of_lt (by omega)]

lemma chunkGo_mem_length (step : ℕ) :
    ∀ (fuel : ℕ) (l : List Int), ∀ c ∈ chunkGo step fuel l, c.length ≤ step := by
  intro fuel
  induction fuel with
  | zero =>
      intro l c hc
      simp [chunkGo] at hc
  | succ n ih =>
      intro l c hc
      cases l with
      | nil => simp [chunkGo] at hc
      | cons x xs =>
          simp only [chunkGo, List.mem_cons] at hc
          rcases hc with h | h
          · subst h
            rw [List.length_take]
            exact min_le_left _ _
          · exact ih _ _ h

lemma packetize_length (rate ch fsz : ℕ) (data : List Int) (h : 0 < fsz * ch) :
    (packetize rate ch data fsz).length = (data.length + fsz * ch - 1) / (fsz * ch) := by
  unfold packetize chunkList
  rw [List.length_map, if_neg (Nat.pos_iff_ne_zero.mp h)]
  exact chunkGo_length _ h _ _ le_rfl

lemma packetize_shape (rate ch fsz : ℕ) (data : List Int) :
    ∀ f ∈ packetize rate ch data fsz,
      f.samplesPerChannel = fsz ∧ f.numChannels = ch ∧ f.data.length = fsz * ch := by
  intro f hf
  unfold packetize chunkList at hf
  by_cases h0 : fsz * ch = 0
  · rw [if_pos h0] at hf
    simp at hf
  · rw [if_neg h0] at hf
    obtain ⟨c, hc, hfe⟩ := List.mem_map.mp hf
    have hcl : c.length ≤ fsz * ch := chunkGo_mem_length _ _ _ _ hc
    have hfsz : fsz ≠ 0 := by
      intro h
      exact h0 (by simp [h])
    subst hfe
    unfold createAudioFrame
    simp only [if_neg hfsz]
    refine ⟨trivial, trivial, ?_⟩
    by_cases hlt : c.length < fsz * ch
    · simp only [if_pos hlt, List.length_append, List.length_replicate]
      omega
    · simp only [if_neg hlt]
      omega

lemma natCeilDiv_cast (a b : ℕ) (hb : 0 < b) :
    (((a + b - 1) / b : ℕ) : ℤ) = ⌈(a : ℚ) / (b : ℚ)⌉ := by
  have hbq : (0 : ℚ) < (b : ℚ) := by exact_mod_cast hb
  rw [eq_comm, Int.ceil_eq_iff]
  constructor
  · have hq : ((a + b - 1) / b) * b ≤ a + b - 1 := Nat.div_mul_le_self _ _
    have hcast : (((a + b - 1) / b : ℕ) : ℚ) * (b : ℚ) ≤ (a : ℚ) + (b : ℚ) - 1 := by
      have h2 : ((((a + b - 1) / b) * b : ℕ) : ℚ) ≤ (((a + b - 1) : ℕ) : ℚ) := by
        exact_mod_cast hq
      push_cast [Nat.cast_sub (show 1 ≤ a + b by omega)] at h2
      linarith
    rw [lt_div_iff₀ hbq, Int.cast_natCast]
    nlinarith [hbq, hcast]
  · rw [div_le_iff₀ hbq]
    have h2 : a + b - 1 < ((a + b - 1) / b + 1) * b :=
      (Nat.div_lt_iff_lt_mul hb).mp (Nat.lt_succ_self _)
    have h3 : a ≤ ((a + b - 1) / b) * b := by
      rw [Nat.succ_mul] at h2
      generalize ((a + b - 1) / b) * b = m at h2 ⊢
      omega
    calc (a : ℚ) ≤ ((((a + b - 1) / b) * b : ℕ) : ℚ) := by exact_mod_cast h3
      _ = (((a + b - 1) / b : ℕ) : ℚ) * (b : ℚ) := by push_cast; ring

lemma aiterGo_closed (fs : Fs) (q : List String) : aiterGo fs true q = ([], []) := by
  cases q <;> simp [aiterGo]

lemma aiterGo_fst (fs : Fs) (q : List String) :
    (aiterGo fs false q).1 = q.map getAudioFilename := by
  induction q with
  | nil => rfl
  | cons t rest ih => simp [aiterGo, ih]

lemma foldl_pushText (l : List String) (s : TTSStream)
    (he : s.ended = false) (hc : s.closed = false) :
    l.foldl pushText s =
      { s with accumulatedText := l.foldl (fun a t => a ++ t) s.accumulatedText } := by
  induction l generalizing s with
  | nil => simp
  | cons x xs ih =>
      have hpush : pushText s x = { s with accumulatedText := s.accumulatedText ++ x } := by
        simp [pushText, he, hc]
      simp only [List.foldl_cons, hpush]
      exact ih _ he hc

/- ===================== Claim theorems ===================== -/

/-- C8: the Intent Resolver lower-cases and strips the input, checks the
greeting keywords as substrings, and returns the greeting asset filename
in both the matching branch and the fallback branch, so it is a constant
function on all inputs. -/
theorem c8_resolver_constant (text : String) :
    getAudioFilename text = "greetings.wav" := by
  simp [getAudioFilename]

/-- C7: after aclose, a push_text call returns the state unchanged
(accumulator included, silently ignored), and iteration of the stream
performs no synthesize call and yields no frames, from any prior state. -/
theorem c7_closed_is_inert (s : TTSStream) (text : String) (fs : Fs) :
    pushText (aclose s) text = aclose s ∧ aiter fs (aclose s) = ([], []) := by
  constructor
  · simp [pushText, aclose]
  · rfl

/-- C3: when the asset file is absent (`os.path.exists` is false) or any
decode error occurs, synthesize produces no events at all: zero frames
and zero metrics_collected emissions. The embedding of synthesize is a
total function, mirroring the catch-all `except` clause: no error
crosses the frame-sequence boundary. -/
theorem c3_silent_failure (fs : Fs) (filename : String)
    (h : fs filename = none ∨ fs filename = some none) :
    synthesize fs filename = [] := by
  rcases h with h | h <;> simp [synthesize, h]

theorem c3_silent_failure_witness :
    (emptyFs "missing.wav" = none ∨ emptyFs "missing.wav" = some none) ∧
      synthesize emptyFs "missing.wav" = [] :=
  ⟨Or.inl rfl, c3_silent_failure emptyFs "missing.wav" (Or.inl rfl)⟩

/-- C2: every frame produced by the packetization loop of the Synthesis
Engine satisfies len(payload) = samples_per_channel * num_channels, for
every sample buffer, sample rate, channel count and frame size (the
final partial chunk is zero-padded to exactly this length). -/
theorem c2_frame_invariant (rate ch fsz : ℕ) (data : List Int) :
    ∀ f ∈ packetize rate ch data fsz,
      f.data.length = f.samplesPerChannel * f.numChannels := by
  intro f hf
  obtain ⟨h1, h2, h3⟩ := packetize_shape rate ch fsz data f hf
  rw [h1, h2, h3]

theorem c2_frame_invariant_witness :
    AudioFrame.mk [5, 0] 2 100 1 ∈ packetize 100 1 [5] 2 ∧
      (AudioFrame.mk [5, 0] 2 100 1).data.length =
        (AudioFrame.mk [5, 0] 2 100 1).samplesPerChannel *
          (AudioFrame.mk [5, 0] 2 100 1).numChannels :=
  ⟨by decide, c2_frame_invariant 100 1 2 [5] _ (by decide)⟩

/-- C4 fails on the code: end_input enqueues the stripped accumulated
text itself, not the resolved filename. On a fresh stream holding
"hello", the queue receives "hello", while the resolver would produce
"greetings.wav". -/
theorem c4_counterexample :
    (endInput helloStream).textQueue = ["hello"] ∧
      getAudioFilename "hello" = "greetings.wav" ∧
      (endInput helloStream).textQueue ≠ [getAudioFilename "hello"] := by
  refine ⟨by decide, by decide, by decide⟩

/-- C4 (amended): end_input marks the stream ended, leaves the
accumulator unchanged, and — when the stripped accumulated text is
nonempty — enqueues that stripped text (not a filename); intent
resolution to a filename happens once per queued utterance at dequeue
time during iteration, not per fragment and not in end_input. -/
theorem c4_end_input_enqueues_text (s : TTSStream) (fs : Fs) :
    (endInput s).ended = true ∧
      (endInput s).accumulatedText = s.accumulatedText ∧
      (endInput s).textQueue =
        s.textQueue ++ (if pyStrip s.accumulatedText = "" then []
          else [pyStrip s.accumulatedText]) ∧
      (s.closed = false →
        (aiter fs (endInput s)).1 = ((endInput s).textQueue).map getAudioFilename) := by
  refine ⟨?_, ?_, ?_, ?_⟩
  · unfold endInput
    split <;> rfl
  · unfold endInput
    split <;> rfl
  · unfold endInput
    split <;> simp
  · intro hc
    have hcl : (endInput s).closed = false := by
      unfold endInput
      split <;> simpa
    unfold aiter
    rw [hcl]
    exact aiterGo_fst fs _

theorem c4_end_input_enqueues_text_witness :
    (endInput helloStream).ended = true ∧
      (endInput helloStream).accumulatedText = helloStream.accumulatedText ∧
      (endInput helloStream).textQueue =
        helloStream.textQueue ++ (if pyStrip helloStream.accumulatedText = "" then []
          else [pyStrip helloStream.accumulatedText]) ∧
      (aiter sampleFs (endInput helloStream)).1 =
        ((endInput helloStream).textQueue).map getAudioFilename := by
  have h := c4_end_input_enqueues_text helloStream sampleFs
  exact ⟨h.1, h.2.1, h.2.2.1, h.2.2.2 rfl⟩

/-- C6: pushing any fragment sequence into a fresh stream and then ending
input enqueues exactly one utterance, the stripped in-order concatenation
of the fragments, when that is nonempty — and nothing otherwise; in the
whitespace-only case iteration performs no synthesize call and yields no
frames. -/
theorem c6_accumulate_then_end (fragments : List String) (fs : Fs) :
    (endInput (fragments.foldl pushText TTSStream.init)).textQueue =
        (if pyStrip (fragments.foldl (fun a t => a ++ t) "") = "" then []
         else [pyStrip (fragments.foldl (fun a t => a ++ t) "")]) ∧
      (pyStrip (fragments.foldl (fun a t => a ++ t) "") = "" →
        aiter fs (endInput (fragments.foldl pushText TTSStream.init)) = ([], [])) := by
  have hfold := foldl_pushText fragments TTSStream.init rfl rfl
  constructor
  · rw [hfold]
    unfold endInput
    simp only [TTSStream.init]
    split <;> simp_all
  · intro hF
    rw [hfold]
    simp [aiter, endInput, TTSStream.init, hF, aiterGo]

theorem c6_accumulate_then_end_witness :
    (endInput ([" ", "\t "].foldl pushText TTSStream.init)).textQueue = [] ∧
      aiter emptyFs (endInput ([" ", "\t "].foldl pushText TTSStream.init)) = ([], []) :=
  ⟨by decide, (c6_accumulate_then_end [" ", "\t "] emptyFs).2 (by decide)⟩

/-- C10: a second end_input on the same stream, with no intervening
clear and a non-whitespace accumulator, enqueues the same stripped text
a second time, and iteration then resolves and synthesizes the same
utterance twice, yielding its frames twice — the OPEN-to-ENDED
transition is not guarded against repetition. -/
theorem c10_double_end_input (s : TTSStream) (fs : Fs)
    (hq : s.textQueue = []) (hc : s.closed = false)
    (hne : pyStrip s.accumulatedText ≠ "") :
    (endInput (endInput s)).textQueue =
        [pyStrip s.accumulatedText, pyStrip s.accumulatedText] ∧
      aiter fs (endInput (endInput s)) =
        ([getAudioFilename (pyStrip s.accumulatedText),
          getAudioFilename (pyStrip s.accumulatedText)],
         framesOf (synthesize fs (getAudioFilename (pyStrip s.accumulatedText))) ++
           framesOf (synthesize fs (getAudioFilename (pyStrip s.accumulatedText)))) := by
  have h1 : endInput s =
      { s with ended := true,
               textQueue := s.textQueue ++ [pyStrip s.accumulatedText] } := by
    unfold endInput
    rw [if_neg hne]
  have h2 : endInput (endInput s) =
      { s with ended := true,
               textQueue := (s.textQueue ++ [pyStrip s.accumulatedText])
                 ++ [pyStrip s.accumulatedText] } := by
    rw [h1]
    unfold endInput
    dsimp only
    rw [if_neg hne]
  rw [h2, hq]
  refine ⟨by simp, ?_⟩
  unfold aiter
  dsimp only
  rw [hc]
  simp [aiterGo]

theorem c10_double_end_input_witness :
    pyStrip helloStream.accumulatedText ≠ "" ∧
      ((endInput (endInput helloStream)).textQueue =
          [pyStrip helloStream.accumulatedText, pyStrip helloStream.accumulatedText] ∧
        aiter sampleFs (endInput (endInput helloStream)) =
          ([getAudioFilename (pyStrip helloStream.accumulatedText),
            getAudioFilename (pyStrip helloStream.accumulatedText)],
           framesOf (synthesize sampleFs
               (getAudioFilename (pyStrip helloStream.accumulatedText))) ++
             framesOf (synthesize sampleFs
               (getAudioFilename (pyStrip helloStream.accumulatedText))))) :=
  ⟨by decide, c10_double_end_input helloStream sampleFs rfl rfl (by decide)⟩

/-- C5: a successful synthesize call emits exactly one metrics_collected
event; it is the very first event, so it precedes every frame; its
fields are the length of the filename passed in, the asset duration in
milliseconds, and zero cost. -/
theorem c5_metrics_once (fs : Fs) (filename : String) (a : WavAsset)
    (hfs : fs filename = some (some a)) (hrate : a.sampleRate ≠ 0) :
    metricsOf (synthesize fs filename) =
        [⟨filename.length, (a.nframes : ℚ) / (a.sampleRate : ℚ) * 1000, 0⟩] ∧
      (synthesize fs filename).head? =
        some (SynthEvent.metrics
          ⟨filename.length, (a.nframes : ℚ) / (a.sampleRate : ℚ) * 1000, 0⟩) := by
  unfold synthesize
  rw [hfs]
  simp only [if_neg hrate]
  constructor
  · rw [metricsOf_cons_metrics, metricsOf_map_frame]
  · rfl

theorem c5_metrics_once_witness :
    sampleFs "greetings.wav" = some (some sampleAsset) ∧
      sampleAsset.sampleRate ≠ 0 ∧
      metricsOf (synthesize sampleFs "greetings.wav") =
        [⟨"greetings.wav".length,
          (sampleAsset.nframes : ℚ) / (sampleAsset.sampleRate : ℚ) * 1000, 0⟩] :=
  ⟨rfl, by decide,
    (c5_metrics_once sampleFs "greetings.wav" sampleAsset rfl (by decide)).1⟩

/-- C1 fails on the code: with a 75 Hz mono asset of 3 samples, the code
uses int(75 * 0.02) = 1 as the frame size and emits 3 frames of one
sample per channel, while the claim predicts a frame size of
round(75 * 0.02) = 2 and ceil(D / 0.02) = ceil(0.04 / 0.02) = 2 frames. -/
theorem c1_counterexample :
    (framesOf (synthesize oddRateFs "odd.wav")).map AudioFrame.samplesPerChannel
        = [1, 1, 1] ∧
      ⌈((3 : ℚ) / 75) / (2 / 100)⌉ = 2 ∧
      round ((75 : ℚ) * (2 / 100)) = 2 := by
  refine ⟨by decide, by norm_num, by norm_num [round_eq]⟩

/-- C1 (amended): for every successfully decoded 16-bit PCM asset whose
sample rate is a positive multiple of 50 Hz, synthesize packetizes the
sample buffer into frames of frame_size = sample_rate / 50
(= round(sample_rate * 0.02) for such rates) samples per channel,
emitting exactly ceil(D / 0.02) frames for D = nframes / sample_rate,
and every frame — the zero-padded final one included — has sample
payload length exactly frame_size * channel_count. -/
theorem c1_frame_count (fs : Fs) (filename : String) (a : WavAsset)
    (hfs : fs filename = some (some a)) (hwf : a.wf)
    (hdvd : 50 ∣ a.sampleRate) (hpos : 0 < a.sampleRate) :
    ((framesOf (synthesize fs filename)).length : ℤ)
        = ⌈((a.nframes : ℚ) / (a.sampleRate : ℚ)) / (2 / 100)⌉ ∧
      ∀ f ∈ framesOf (synthesize fs filename),
        f.samplesPerChannel = a.sampleRate / 50 ∧
          f.data.length = (a.sampleRate / 50) * a.numChannels := by
  obtain ⟨hch, hlen⟩ := hwf
  obtain ⟨k, hk⟩ := hdvd
  have hk0 : 0 < k := by omega
  have hfsz : a.sampleRate / 50 = k := by omega
  have hframes : framesOf (synthesize fs filename) =
      packetize a.sampleRate a.numChannels a.samples (a.sampleRate / 50) := by
    unfold synthesize
    rw [hfs]
    dsimp only
    rw [if_neg (Nat.pos_iff_ne_zero.mp hpos)]
    rw [framesOf_cons_metrics, framesOf_map_frame]
  constructor
  · rw [hframes, hfsz]
    have hkc : 0 < k * a.numChannels := Nat.mul_pos hk0 (by omega)
    rw [packetize_length _ _ _ _ hkc, hlen]
    rw [natCeilDiv_cast _ _ hkc]
    congr 1
    rw [hk]
    have hc0 : (a.numChannels : ℚ) ≠ 0 := by
      exact_mod_cast (by omega : a.numChannels ≠ 0)
    have hkq : (k : ℚ) ≠ 0 := by exact_mod_cast hk0.ne'
    push_cast
    field_simp
    ring
  · intro f hf
    rw [hframes] at hf
    obtain ⟨h1, h2, h3⟩ := packetize_shape _ _ _ _ f hf
    exact ⟨h1, h3⟩

theorem c1_frame_count_witness :
    sampleFs "greetings.wav" = some (some sampleAsset) ∧
      sampleAsset.wf ∧ 50 ∣ sampleAsset.sampleRate ∧ 0 < sampleAsset.sampleRate ∧
      ((framesOf (synthesize sampleFs "greetings.wav")).length : ℤ)
        = ⌈((sampleAsset.nframes : ℚ) / (sampleAsset.sampleRate : ℚ)) / (2 / 100)⌉ :=
  ⟨rfl, by decide, by decide, by decide,
    (c1_frame_count sampleFs "greetings.wav" sampleAsset rfl (by decide)
      (by decide) (by decide)).1⟩

end TTSModel
